import Mathlib

/-!
Shallow embedding of `src/ps_ingestion_lambda/modules/replay_handler.py`
(the `ReplayHandler` class of the babiri_v2 repository).

External collaborators (the ladder retriever `get_users`, the HTTP helpers
`get_soup_from_url` and `get_response_from_url`) are modelled as fields of an
`Env` record; each HTTP helper may fail, which models a raised Python
exception.  The constants `MAX_USERS` and `REPLAY_BASE_URL` live in the
repository's `utils/constants.py`, which is not part of the core source; they
are therefore passed as explicit parameters (`maxUsers`, `replayBaseUrl`)
rather than fixed to concrete values.

Python exceptions are modelled by the `PyExc` type and fallible code returns
`Except PyExc _`.  A Python function that swallows an exception and falls off
the end returns `none`; accordingly the element type of the list built by
`extract_replays` is `Option ReplayInfo`, where `none` is Python's `None`.
-/

/-- Record produced by the ladder retriever: `data/ladder_user_info.py`. -/
structure LadderUserInfo where
  username : String
  rating : Int
  deriving DecidableEq

/-- Output record `data/replay_info.py`: replay id, user identity and the
server-supplied replay fields. -/
structure ReplayInfo where
  id : String
  username : String
  rating : Int
  format : String
  log : String
  uploadtime : Int
  deriving DecidableEq

/-- Replay-metadata JSON payload, restricted to the four keys the handler
reads; a `none` field models an absent key in the Python dict. -/
structure ReplayJson where
  id : Option String
  format : Option String
  log : Option String
  uploadtime : Option Int
  deriving DecidableEq

/-- Python exceptions that can flow through the handler. -/
inductive PyExc where
  | keyError (key : String)
  | requestException (msg : String)
  | typeError (msg : String)
  | ladderNotFound (formatId : String)
  deriving DecidableEq

/-- Anchor-like HTML element of the parsed search page: a tag name and an
optional `href` attribute (`none` models `element.get("href") = None`). -/
structure HtmlElement where
  name : String
  href : Option String
  deriving DecidableEq

/-- Helper for Python's substring test: does `hay` start with `needle`? -/
def strStartsAt : List Char → List Char → Bool
  | [], _ => true
  | _ :: _, [] => false
  | a :: as, b :: bs => a == b && strStartsAt as bs

/-- Helper scanning every suffix of the haystack for the needle. -/
def strFindSub (needle : List Char) : List Char → Bool
  | [] => needle.isEmpty
  | c :: rest => strStartsAt needle (c :: rest) || strFindSub needle rest

/-- Python's `needle in hay` on strings: substring containment. -/
def strContains (hay needle : String) : Bool :=
  strFindSub needle.toList hay.toList

/-- External collaborators of the handler, consumed through a narrow
interface: the ladder retriever and the two HTTP fetch helpers. -/
structure Env where
  getUsers : String → List LadderUserInfo
  getSoup : String → Except PyExc (List HtmlElement)
  getResponse : String → Except PyExc (Option ReplayJson)

/-- Module-level constant of `replay_handler.py`. -/
def REPLAY_SEARCH_BASE_URL : String :=
  "https://replay.pokemonshowdown.com/search/?output=html&page=1&user="

/-- Empty Python dict `{}` viewed as a replay payload: every key absent. -/
def emptyReplayJson : ReplayJson := ⟨none, none, none, none⟩

/-- Predicate passed to `find_all`:
`predicate.name == "a" and self.format_id in predicate.get("href")`.
When the element is an `<a>` with no `href`, Python's `in` is applied to
`None` and raises a `TypeError`; the predicate is otherwise pure. -/
def anchorPred (formatId : String) (e : HtmlElement) : Except PyExc Bool :=
  if e.name = "a" then
    match e.href with
    | none => Except.error (PyExc.typeError "argument of type NoneType is not iterable")
    | some h => Except.ok (strContains h formatId)
  else Except.ok false

/-- Model of `soup.find_all(predicate)` followed by reading each match's
`href`: returns the hrefs of the matching elements in page order, or the
first exception the predicate raises. -/
def findAllHrefs (formatId : String) : List HtmlElement → Except PyExc (List String)
  | [] => Except.ok []
  | e :: rest =>
    match anchorPred formatId e with
    | Except.error err => Except.error err
    | Except.ok b =>
      match findAllHrefs formatId rest with
      | Except.error err => Except.error err
      | Except.ok tail =>
        if b then Except.ok (e.href.getD "" :: tail) else Except.ok tail

/-- Body of the `try` block of `_get_most_recent_replay_id`: fetch the search
page and build the list comprehension `[replay.get("href")[1:] for ...]`. -/
def replayIdCandidates (env : Env) (formatId username : String) :
    Except PyExc (List String) :=
  match env.getSoup (REPLAY_SEARCH_BASE_URL ++ username) with
  | Except.error e => Except.error e
  | Except.ok soup =>
    match findAllHrefs formatId soup with
    | Except.error e => Except.error e
    | Except.ok hrefs => Except.ok (hrefs.map (fun h => h.drop 1))

/-- `ReplayHandler._get_most_recent_replay_id`: first candidate if any,
`""` when the list is empty, and `""` for every exception (the
`except Exception` arm logs a warning and returns the empty string). -/
def get_most_recent_replay_id (env : Env) (formatId username : String) : String :=
  match replayIdCandidates env formatId username with
  | Except.ok (x :: _) => x
  | Except.ok [] => ""
  | Except.error _ => ""

/-- `ReplayHandler._get_replay_json_from_id`: fetch
`<replay-base-url><replay_id>.json`; a falsy response becomes the empty dict,
and every exception propagates (the `except RequestException` arm re-raises). -/
def get_replay_json_from_id (env : Env) (replayBaseUrl replay_id : String) :
    Except PyExc ReplayJson :=
  match env.getResponse (replayBaseUrl ++ replay_id ++ ".json") with
  | Except.error e => Except.error e
  | Except.ok none => Except.ok emptyReplayJson
  | Except.ok (some j) => Except.ok j

/-- Construction of `ReplayInfo(...)` from the payload, reading the keys in
the source's evaluation order `id`, `format`, `log`, `uploadtime`; a missing
key is a `KeyError` naming that key. -/
def buildReplayInfo (user_info : LadderUserInfo) (j : ReplayJson) :
    Except PyExc ReplayInfo :=
  match j.id with
  | none => Except.error (PyExc.keyError "id")
  | some i =>
    match j.format with
    | none => Except.error (PyExc.keyError "format")
    | some f =>
      match j.log with
      | none => Except.error (PyExc.keyError "log")
      | some l =>
        match j.uploadtime with
        | none => Except.error (PyExc.keyError "uploadtime")
        | some t => Except.ok ⟨i, user_info.username, user_info.rating, f, l, t⟩

/-- `ReplayHandler._get_replay_info`: the `try` body fetches the JSON and
builds the record; `except KeyError` logs and re-raises, while
`except Exception` logs and falls off the end — Python then returns `None`,
modelled as `Except.ok none`. -/
def get_replay_info (env : Env) (replayBaseUrl : String) (user_info : LadderUserInfo)
    (replay_id : String) : Except PyExc (Option ReplayInfo) :=
  match (match get_replay_json_from_id env replayBaseUrl replay_id with
         | Except.error e => Except.error e
         | Except.ok j => buildReplayInfo user_info j) with
  | Except.ok replay_info => Except.ok (some replay_info)
  | Except.error (PyExc.keyError k) => Except.error (PyExc.keyError k)
  | Except.error _ => Except.ok none

/-- The `for user_info in top_ladder_users` loop of `extract_replays`,
with the accumulating `teams_found` counter made explicit; the loop breaks
when `teams_found == num_users_to_pull` right after an append, and any
exception raised by `_get_replay_info` propagates. -/
def extractLoop (env : Env) (formatId replayBaseUrl : String) :
    List LadderUserInfo → Nat → Nat → Except PyExc (List (Option ReplayInfo))
  | [], _, _ => Except.ok []
  | user_info :: rest, num_users_to_pull, teams_found =>
    let most_recent_replay_id := get_most_recent_replay_id env formatId user_info.username
    if most_recent_replay_id = "" then
      extractLoop env formatId replayBaseUrl rest num_users_to_pull teams_found
    else
      match get_replay_info env replayBaseUrl user_info most_recent_replay_id with
      | Except.error e => Except.error e
      | Except.ok replay_info =>
        if teams_found + 1 = num_users_to_pull then
          Except.ok [replay_info]
        else
          match extractLoop env formatId replayBaseUrl rest num_users_to_pull
              (teams_found + 1) with
          | Except.error e => Except.error e
          | Except.ok tail => Except.ok (replay_info :: tail)

/-- `ReplayHandler.extract_replays`: clamp the requested count with
`min(num_users_to_pull, MAX_USERS)`, fetch the rankings, raise
`LadderNotFoundException` when the list is falsy, and otherwise run the
per-user loop. -/
def extract_replays (env : Env) (formatId replayBaseUrl : String) (maxUsers : Nat)
    (num_users_to_pull : Nat) : Except PyExc (List (Option ReplayInfo)) :=
  let n := min num_users_to_pull maxUsers
  let top_ladder_users := env.getUsers formatId
  if top_ladder_users = [] then
    Except.error (PyExc.ladderNotFound formatId)
  else
    extractLoop env formatId replayBaseUrl top_ladder_users n 0

instance {ε α : Type} [DecidableEq ε] [DecidableEq α] : DecidableEq (Except ε α) := fun x y =>
  match x, y with
  | Except.error a, Except.error b =>
    if h : a = b then Decidable.isTrue (by rw [h])
    else Decidable.isFalse (by intro hc; cases hc; exact h rfl)
  | Except.ok a, Except.ok b =>
    if h : a = b then Decidable.isTrue (by rw [h])
    else Decidable.isFalse (by intro hc; cases hc; exact h rfl)
  | Except.error _, Except.ok _ => Decidable.isFalse (by intro hc; cases hc)
  | Except.ok _, Except.error _ => Decidable.isFalse (by intro hc; cases hc)

/-- Record produced for one ranked user: `_get_replay_info` applied to the
replay id `_get_most_recent_replay_id` resolves for that user. -/
def recordOf (env : Env) (formatId replayBaseUrl : String) (u : LadderUserInfo) :
    Except PyExc (Option ReplayInfo) :=
  get_replay_info env replayBaseUrl u (get_most_recent_replay_id env formatId u.username)

/-- Value appended to the result list for one ranked user whose record fetch
does not raise: the `some`-or-`none` payload of `recordOf`. -/
def recordVal (env : Env) (formatId replayBaseUrl : String) (u : LadderUserInfo) :
    Option ReplayInfo :=
  (recordOf env formatId replayBaseUrl u).toOption.getD none

/-- Ranked users for whom the search page yields a non-empty replay id. -/
def foundUsers (env : Env) (formatId : String) (users : List LadderUserInfo) :
    List LadderUserInfo :=
  users.filter (fun u => decide (get_most_recent_replay_id env formatId u.username ≠ ""))

/-- Effect of the `teams_found == num_users_to_pull` break on the stream of
found users: starting from counter `found`, the loop keeps `k - found` of
them when `found < k`, and never breaks otherwise (the counter only grows, so
equality is unreachable once `found ≥ k`). -/
def takeStop (k found : Nat) (l : List α) : List α :=
  if found < k then l.take (k - found) else l

/-- Hrefs of the `<a>` elements whose `href` contains the format id, in page
order; coincides with `findAllHrefs` whenever every anchor has an `href`. -/
def matchingAnchors (formatId : String) (page : List HtmlElement) : List String :=
  (page.filter (fun e =>
    decide (e.name = "a") &&
      (match e.href with
       | some h => strContains h formatId
       | none => false))).map (fun e => e.href.getD "")

/-- First absent key of a payload in the source's access order
`id`, `format`, `log`, `uploadtime`; `none` when the payload is complete. -/
def firstMissingKey (j : ReplayJson) : Option String :=
  if j.id = none then some "id"
  else if j.format = none then some "format"
  else if j.log = none then some "log"
  else if j.uploadtime = none then some "uploadtime"
  else none

/-- Environment with one ranked user whose replay-JSON fetch raises a
network-level `RequestException`. -/
def env1c : Env :=
  ⟨fun _ => [⟨"alice", 1500⟩],
   fun _ => Except.ok [⟨"a", some "/f-3"⟩],
   fun _ => Except.error (PyExc.requestException "connection reset")⟩

/-- Environment with one ranked user whose replay payload lacks the `id` key. -/
def env2c : Env :=
  ⟨fun _ => [⟨"bob", 1400⟩],
   fun _ => Except.ok [⟨"a", some "/f-9"⟩],
   fun _ => Except.ok (some ⟨none, some "f", some "lg", some 5⟩)⟩

/-- Environment with one ranked user whose replay fetch fully succeeds. -/
def env3c : Env :=
  ⟨fun _ => [⟨"alice", 1500⟩],
   fun _ => Except.ok [⟨"a", some "/f-1"⟩],
   fun _ => Except.ok (some ⟨some "r1", some "f", some "lg", some 7⟩)⟩

/-- Environment with two ranked users: `alice` has no matching replay link
and `bob` has one whose payload fetch fully succeeds. -/
def env4c : Env :=
  ⟨fun _ => [⟨"alice", 1500⟩, ⟨"bob", 1400⟩],
   fun url => if url = REPLAY_SEARCH_BASE_URL ++ "alice" then Except.ok []
              else Except.ok [⟨"a", some "/f-2"⟩],
   fun _ => Except.ok (some ⟨some "r2", some "f", some "LOG", some 9⟩)⟩

/-- Environment whose ranking list is empty. -/
def env6c : Env :=
  ⟨fun _ => [], fun _ => Except.ok [], fun _ => Except.ok none⟩

/-- Environment whose replay payload lacks only the `log` key. -/
def env7c : Env :=
  ⟨fun _ => [], fun _ => Except.ok [],
   fun _ => Except.ok (some ⟨some "r1", some "f", none, some 5⟩)⟩

/-- Environment whose search page holds three matching links in order. -/
def env8c : Env :=
  ⟨fun _ => [],
   fun _ => Except.ok [⟨"a", some "/r3"⟩, ⟨"a", some "/r2"⟩, ⟨"a", some "/r1"⟩],
   fun _ => Except.ok none⟩

/-- Environment whose search-page fetch raises. -/
def env9c : Env :=
  ⟨fun _ => [⟨"dave", 1200⟩],
   fun _ => Except.error (PyExc.requestException "timeout"),
   fun _ => Except.ok none⟩

/-- Environment with one ranked user whose replay-JSON fetch succeeds with a
falsy body. -/
def env10c : Env :=
  ⟨fun _ => [⟨"carol", 1600⟩],
   fun _ => Except.ok [⟨"a", some "/f-5"⟩],
   fun _ => Except.ok none⟩

theorem takeStop_nil {α : Type} (k found : Nat) : takeStop k found ([] : List α) = [] := by
  unfold takeStop
  split <;> simp

theorem recordVal_of_ok (env : Env) (f b : String) (u : LadderUserInfo)
    (x : Option ReplayInfo) (h : recordOf env f b u = Except.ok x) :
    recordVal env f b u = x := by
  simp [recordVal, h, Except.toOption]

theorem foundUsers_cons_skip (env : Env) (f : String) (u : LadderUserInfo)
    (rest : List LadderUserInfo) (hid : get_most_recent_replay_id env f u.username = "") :
    foundUsers env f (u :: rest) = foundUsers env f rest := by
  simp [foundUsers, List.filter_cons, hid]

theorem foundUsers_cons_found (env : Env) (f : String) (u : LadderUserInfo)
    (rest : List LadderUserInfo) (hid : ¬ get_most_recent_replay_id env f u.username = "") :
    foundUsers env f (u :: rest) = u :: foundUsers env f rest := by
  simp [foundUsers, List.filter_cons, hid]

theorem extractLoop_ok_eq (env : Env) (f b : String) (users : List LadderUserInfo) :
    ∀ (k found : Nat) (l : List (Option ReplayInfo)),
      extractLoop env f b users k found = Except.ok l →
      l = (takeStop k found (foundUsers env f users)).map (recordVal env f b) := by
  induction users with
  | nil =>
    intro k found l h
    simp [extractLoop] at h
    simp [← h, foundUsers, takeStop_nil]
  | cons u rest ih =>
    intro k found l h
    simp only [extractLoop] at h
    by_cases hid : get_most_recent_replay_id env f u.username = ""
    · rw [if_pos hid] at h
      rw [foundUsers_cons_skip env f u rest hid]
      exact ih k found l h
    · rw [if_neg hid] at h
      rw [foundUsers_cons_found env f u rest hid]
      split at h
      · simp at h
      · rename_i x hrec
        have hrv : recordVal env f b u = x := recordVal_of_ok env f b u x hrec
        by_cases hk : found + 1 = k
        · rw [if_pos hk] at h
          simp at h
          subst h
          have hfk : found < k := by omega
          have hk1 : k - found = 1 := by omega
          unfold takeStop
          rw [if_pos hfk, hk1]
          simp [hrv]
        · rw [if_neg hk] at h
          split at h
          · simp at h
          · rename_i t htail
            simp at h
            subst h
            have ht := ih k (found + 1) t htail
            by_cases hfk : found < k
            · have hfk1 : found + 1 < k := by omega
              unfold takeStop at ht ⊢
              rw [if_pos hfk]
              rw [if_pos hfk1] at ht
              have hsub : k - found = (k - (found + 1)) + 1 := by omega
              rw [hsub, List.take_succ_cons]
              simp [hrv, ht]
            · have hfk1 : ¬ found + 1 < k := by omega
              unfold takeStop at ht ⊢
              rw [if_neg hfk]
              rw [if_neg hfk1] at ht
              simp [hrv, ht]

theorem get_replay_info_error (env : Env) (b : String) (u : LadderUserInfo)
    (rid : String) (e : PyExc)
    (h : get_replay_info env b u rid = Except.error e) :
    ∃ key, e = PyExc.keyError key := by
  unfold get_replay_info at h
  split at h
  · simp at h
  · simp at h
    exact ⟨_, h.symm⟩
  · simp at h

theorem extractLoop_error (env : Env) (f b : String) (users : List LadderUserInfo) :
    ∀ (k found : Nat) (e : PyExc),
      extractLoop env f b users k found = Except.error e →
      ∃ key, e = PyExc.keyError key := by
  induction users with
  | nil =>
    intro k found e h
    simp [extractLoop] at h
  | cons u rest ih =>
    intro k found e h
    simp only [extractLoop] at h
    by_cases hid : get_most_recent_replay_id env f u.username = ""
    · rw [if_pos hid] at h
      exact ih k found e h
    · rw [if_neg hid] at h
      split at h
      · rename_i e2 hrec
        simp at h
        subst h
        exact get_replay_info_error env b u _ _ hrec
      · rename_i x hrec
        by_cases hk : found + 1 = k
        · rw [if_pos hk] at h
          simp at h
        · rw [if_neg hk] at h
          split at h
          · rename_i e2 htail
            simp at h
            subst h
            exact ih k (found + 1) _ htail
          · simp at h

theorem extractLoop_append (env : Env) (f b : String) (extra : List LadderUserInfo)
    (users : List LadderUserInfo) :
    ∀ (k found : Nat), found < k →
      k - found ≤ (foundUsers env f users).length →
      extractLoop env f b (users ++ extra) k found = extractLoop env f b users k found := by
  induction users with
  | nil =>
    intro k found h1 h2
    simp [foundUsers] at h2
    omega
  | cons u rest ih =>
    intro k found h1 h2
    rw [List.cons_append]
    simp only [extractLoop]
    by_cases hid : get_most_recent_replay_id env f u.username = ""
    · rw [if_pos hid, if_pos hid]
      rw [foundUsers_cons_skip env f u rest hid] at h2
      exact ih k found h1 h2
    · rw [if_neg hid, if_neg hid]
      rw [foundUsers_cons_found env f u rest hid] at h2
      cases hrec : get_replay_info env b u (get_most_recent_replay_id env f u.username) with
      | error e => rfl
      | ok x =>
        by_cases hk : found + 1 = k
        · simp [hk]
        · have h1' : found + 1 < k := by omega
          have h2' : k - (found + 1) ≤ (foundUsers env f rest).length := by
            simp at h2
            omega
          rw [ih k (found + 1) h1' h2']

theorem findAllHrefs_total (f : String) : ∀ (page : List HtmlElement),
    (∀ e ∈ page, e.name = "a" → e.href ≠ none) →
    findAllHrefs f page = Except.ok (matchingAnchors f page) := by
  intro page
  induction page with
  | nil =>
    intro _
    simp [findAllHrefs, matchingAnchors]
  | cons e rest ih =>
    intro h
    have hrest : ∀ x ∈ rest, x.name = "a" → x.href ≠ none :=
      fun x hx => h x (List.mem_cons_of_mem _ hx)
    have ih' := ih hrest
    by_cases hn : e.name = "a"
    · cases he : e.href with
      | none => exact absurd he (h e (List.mem_cons_self _ _) hn)
      | some hv =>
        by_cases hc : strContains hv f
        · simp [findAllHrefs, anchorPred, hn, he, ih', matchingAnchors, List.filter_cons, hc]
        · simp [findAllHrefs, anchorPred, hn, he, ih', matchingAnchors, List.filter_cons, hc]
    · simp [findAllHrefs, anchorPred, hn, ih', matchingAnchors, List.filter_cons]

/-- C1: the claim states that when a user's replay-JSON fetch fails with a
non-`KeyError` error, no record is produced for that user and the found-count
is not incremented.  The code instead swallows the exception inside
`_get_replay_info`, implicitly returns `None`, and `extract_replays` appends
that `None` to the result list and increments `teams_found` — here the single
`None` even satisfies a requested count of 1.  This theorem evaluates the code
at the failing input, exhibiting the divergence (a code bug: the source's own
`-> ReplayInfo` annotation and docstring promise a real record). -/
theorem c1_code_behavior : extract_replays env1c "f" "b" 10 1 = Except.ok [none] := by
  decide

/-- C2 counterexample: the claim says the empty ranking is the only condition
that makes an `extract_replays` call fail, with malformed replay payloads
isolated per user.  Here the ranking is non-empty, one user's payload merely
lacks the `id` key, and the whole call fails with that `KeyError`. -/
theorem c2_counterexample :
    env2c.getUsers "f" ≠ [] ∧
    extract_replays env2c "f" "b" 10 5 = Except.error (PyExc.keyError "id") :=
  ⟨by decide, by decide⟩

/-- C2 (amended): the only errors that escape `extract_replays` are the
empty-ranking `LadderNotFoundException` and a `KeyError` from a malformed
replay payload; lookup failures and replay-fetch transport failures never
escape (they are downgraded inside the lookup and record layers). -/
theorem c2_amended (env : Env) (f b : String) (maxUsers n : Nat) (e : PyExc)
    (h : extract_replays env f b maxUsers n = Except.error e) :
    e = PyExc.ladderNotFound f ∨ ∃ key, e = PyExc.keyError key := by
  simp only [extract_replays] at h
  by_cases hu : env.getUsers f = []
  · rw [if_pos hu] at h
    simp at h
    exact Or.inl h.symm
  · rw [if_neg hu] at h
    exact Or.inr (extractLoop_error env f b _ _ _ _ h)

/-- C2 witness: the amended theorem applied at a concrete failing call. -/
theorem c2_amended_witness :
    extract_replays env2c "f" "b" 10 5 = Except.error (PyExc.keyError "id") ∧
    (PyExc.keyError "id" = PyExc.ladderNotFound "f" ∨
      ∃ key, PyExc.keyError "id" = PyExc.keyError key) :=
  ⟨by decide, c2_amended env2c "f" "b" 10 5 (PyExc.keyError "id") (by decide)⟩

/-- C3 counterexample: the claim's length bound fails for the requested count
0: `min(0, MAX_USERS) = 0`, but since `teams_found` starts at 0 and the break
tests `teams_found == num_users_to_pull` only after an append, the first
append makes the counter 1 and the test can never fire, so the call returns
one entry instead of none. -/
theorem c3_counterexample :
    extract_replays env3c "f" "b" 10 0 =
      Except.ok [some ⟨"r1", "alice", 1500, "f", "lg", 7⟩] ∧
    ¬ ([some (⟨"r1", "alice", 1500, "f", "lg", 7⟩ : ReplayInfo)].length ≤ min 0 10) :=
  ⟨by decide, by decide⟩

/-- C3 (amended): for every requested count whose clamped value
`min(num_users_to_pull, MAX_USERS)` is at least 1, the returned list has
length at most the clamped count and at most the number of ranked users with
a matching replay id, and its entries arise from a sublist of the ranking —
hence at most one entry per distinct ranked user. -/
theorem c3_amended (env : Env) (f b : String) (maxUsers n : Nat)
    (l : List (Option ReplayInfo))
    (hpos : 1 ≤ min n maxUsers)
    (h : extract_replays env f b maxUsers n = Except.ok l) :
    l.length ≤ min n maxUsers ∧
    l.length ≤ (foundUsers env f (env.getUsers f)).length ∧
    ∃ S : List LadderUserInfo, S.Sublist (env.getUsers f) ∧
      l = S.map (recordVal env f b) ∧ ((env.getUsers f).Nodup → S.Nodup) := by
  have hu : ¬ env.getUsers f = [] := by
    intro hu
    simp only [extract_replays] at h
    rw [if_pos hu] at h
    simp at h
  simp only [extract_replays] at h
  rw [if_neg hu] at h
  have hl := extractLoop_ok_eq env f b (env.getUsers f) (min n maxUsers) 0 l h
  have hks : takeStop (min n maxUsers) 0 (foundUsers env f (env.getUsers f)) =
      (foundUsers env f (env.getUsers f)).take (min n maxUsers) := by
    unfold takeStop
    rw [if_pos (by omega)]
    simp
  rw [hks] at hl
  have hsub : ((foundUsers env f (env.getUsers f)).take (min n maxUsers)).Sublist
      (env.getUsers f) :=
    (List.take_sublist _ _).trans (List.filter_sublist _)
  refine ⟨?_, ?_, ?_⟩
  · rw [hl, List.length_map, List.length_take]
    exact Nat.min_le_left _ _
  · rw [hl, List.length_map, List.length_take]
    exact Nat.min_le_right _ _
  · exact ⟨_, hsub, hl, fun hnd => hnd.sublist hsub⟩

/-- C3 witness: the amended theorem applied at a concrete successful call. -/
theorem c3_amended_witness :
    1 ≤ min 1 10 ∧
    extract_replays env3c "f" "b" 10 1 =
      Except.ok [some ⟨"r1", "alice", 1500, "f", "lg", 7⟩] ∧
    ([some (⟨"r1", "alice", 1500, "f", "lg", 7⟩ : ReplayInfo)].length ≤ min 1 10 ∧
     [some (⟨"r1", "alice", 1500, "f", "lg", 7⟩ : ReplayInfo)].length ≤
        (foundUsers env3c "f" (env3c.getUsers "f")).length ∧
     ∃ S : List LadderUserInfo, S.Sublist (env3c.getUsers "f") ∧
       [some (⟨"r1", "alice", 1500, "f", "lg", 7⟩ : ReplayInfo)] =
         S.map (recordVal env3c "f" "b") ∧
       ((env3c.getUsers "f").Nodup → S.Nodup)) :=
  ⟨by decide, by decide, c3_amended env3c "f" "b" 10 1 _ (by decide) (by decide)⟩

/-- C4: the list returned by `extract_replays` is an order-preserving filter
of the ranking: it equals the per-user records mapped over the
found-users of the ranking, truncated by the early-termination rule
(`takeStop`), so entries keep the ranking's relative order and users with no
matching replay id are omitted; and whenever the clamped count is positive
and reachable within the ranking, appending further ranked users past the
early-termination point leaves the result unchanged — those users are never
contacted. -/
theorem c4_order_preserving (env : Env) (f b : String) (maxUsers n : Nat)
    (l : List (Option ReplayInfo))
    (h : extract_replays env f b maxUsers n = Except.ok l) :
    l = (takeStop (min n maxUsers) 0 (foundUsers env f (env.getUsers f))).map
        (recordVal env f b) ∧
    (∀ extra : List LadderUserInfo, 1 ≤ min n maxUsers →
       min n maxUsers ≤ (foundUsers env f (env.getUsers f)).length →
       extractLoop env f b (env.getUsers f ++ extra) (min n maxUsers) 0 =
         Except.ok l) := by
  have hu : ¬ env.getUsers f = [] := by
    intro hu
    simp only [extract_replays] at h
    rw [if_pos hu] at h
    simp at h
  simp only [extract_replays] at h
  rw [if_neg hu] at h
  refine ⟨extractLoop_ok_eq env f b _ _ _ _ h, ?_⟩
  intro extra h1 h2
  rw [extractLoop_append env f b extra (env.getUsers f) (min n maxUsers) 0 (by omega)
    (by simpa using h2)]
  exact h

/-- C4 witness: two ranked users, the first without a matching replay; the
theorem applied at this concrete call. -/
theorem c4_order_preserving_witness :
    extract_replays env4c "f" "b" 10 5 =
      Except.ok [some ⟨"r2", "bob", 1400, "f", "LOG", 9⟩] ∧
    ([some (⟨"r2", "bob", 1400, "f", "LOG", 9⟩ : ReplayInfo)] =
       (takeStop (min 5 10) 0 (foundUsers env4c "f" (env4c.getUsers "f"))).map
         (recordVal env4c "f" "b") ∧
     (∀ extra : List LadderUserInfo, 1 ≤ min 5 10 →
        min 5 10 ≤ (foundUsers env4c "f" (env4c.getUsers "f")).length →
        extractLoop env4c "f" "b" (env4c.getUsers "f" ++ extra) (min 5 10) 0 =
          Except.ok [some ⟨"r2", "bob", 1400, "f", "LOG", 9⟩])) :=
  ⟨by decide, c4_order_preserving env4c "f" "b" 10 5 _ (by decide)⟩

/-- C5: the effective count used by the loop is `min(N, MAX_USERS)`: whenever
the requested count is at least the configured maximum, the clamp yields the
maximum and the whole call behaves exactly as a request for the maximum; the
clamp is a total `min`, so it can never raise. -/
theorem c5_clamp (env : Env) (f b : String) (maxUsers n : Nat) (h : maxUsers ≤ n) :
    min n maxUsers = maxUsers ∧
    extract_replays env f b maxUsers n = extract_replays env f b maxUsers maxUsers := by
  have hm : min n maxUsers = maxUsers := Nat.min_eq_right h
  refine ⟨hm, ?_⟩
  simp only [extract_replays, hm, Nat.min_self]

/-- C5 witness: the clamp theorem applied at the concrete counts 25 and 10. -/
theorem c5_clamp_witness :
    (10 : Nat) ≤ 25 ∧
    (min 25 10 = 10 ∧
      extract_replays env6c "f" "b" 10 25 = extract_replays env6c "f" "b" 10 10) :=
  ⟨by decide, c5_clamp env6c "f" "b" 10 25 (by decide)⟩

/-- C6: whenever the ranking source returns an empty user list,
`extract_replays` raises `LadderNotFoundException` for the format and returns
no partial result list. -/
theorem c6_empty_ranking (env : Env) (f b : String) (maxUsers n : Nat)
    (h : env.getUsers f = []) :
    extract_replays env f b maxUsers n = Except.error (PyExc.ladderNotFound f) := by
  simp only [extract_replays]
  rw [if_pos h]

/-- C6 witness: the empty-ranking theorem applied at a concrete environment. -/
theorem c6_empty_ranking_witness :
    env6c.getUsers "gen8vgc2020" = [] ∧
    extract_replays env6c "gen8vgc2020" "b" 10 5 =
      Except.error (PyExc.ladderNotFound "gen8vgc2020") :=
  ⟨rfl, c6_empty_ranking env6c "gen8vgc2020" "b" 10 5 rfl⟩

/-- C7: for every fetched replay payload missing one of the required keys
`id`, `format`, `log`, `uploadtime`, record construction in
`_get_replay_info` raises a `KeyError` identifying the first missing field in
the source's access order, which is re-raised rather than swallowed, and no
`ReplayInfo` is constructed. -/
theorem c7_missing_key (env : Env) (b : String) (u : LadderUserInfo) (rid : String)
    (j : ReplayJson) (key : String)
    (hj : get_replay_json_from_id env b rid = Except.ok j)
    (hk : firstMissingKey j = some key) :
    get_replay_info env b u rid = Except.error (PyExc.keyError key) := by
  obtain ⟨jid, jfmt, jlog, jup⟩ := j
  rcases jid with _ | i <;> rcases jfmt with _ | f2 <;> rcases jlog with _ | l2 <;>
    rcases jup with _ | t2 <;>
    simp [firstMissingKey] at hk <;>
    subst hk <;>
    simp [get_replay_info, hj, buildReplayInfo]

/-- C7 witness: payload lacking only the `log` key; the theorem applied. -/
theorem c7_missing_key_witness :
    get_replay_json_from_id env7c "b" "r1" =
      Except.ok ⟨some "r1", some "f", none, some 5⟩ ∧
    firstMissingKey ⟨some "r1", some "f", none, some 5⟩ = some "log" ∧
    get_replay_info env7c "b" ⟨"al", 1⟩ "r1" = Except.error (PyExc.keyError "log") :=
  ⟨by decide, by decide,
    c7_missing_key env7c "b" ⟨"al", 1⟩ "r1" ⟨some "r1", some "f", none, some 5⟩
      "log" (by decide) (by decide)⟩

/-- C8: on a search page whose anchors all carry hrefs, the lookup selects
the anchors whose href contains the format id as a substring, takes the first
such href in page order with no re-sorting, and returns it with its leading
character (the path separator) stripped. -/
theorem c8_first_match (env : Env) (f username : String) (page : List HtmlElement)
    (x : String) (t : List String)
    (hsoup : env.getSoup (REPLAY_SEARCH_BASE_URL ++ username) = Except.ok page)
    (hhref : ∀ e ∈ page, e.name = "a" → e.href ≠ none)
    (hmatch : matchingAnchors f page = x :: t) :
    get_most_recent_replay_id env f username = x.drop 1 := by
  simp [get_most_recent_replay_id, replayIdCandidates, hsoup,
    findAllHrefs_total f page hhref, hmatch]

/-- C8 witness: matching links in order `[/r3, /r2, /r1]` yield `"r3"`. -/
theorem c8_first_match_witness :
    env8c.getSoup (REPLAY_SEARCH_BASE_URL ++ "u") =
      Except.ok [⟨"a", some "/r3"⟩, ⟨"a", some "/r2"⟩, ⟨"a", some "/r1"⟩] ∧
    (∀ e ∈ [(⟨"a", some "/r3"⟩ : HtmlElement), ⟨"a", some "/r2"⟩, ⟨"a", some "/r1"⟩],
        e.name = "a" → e.href ≠ none) ∧
    matchingAnchors "r" [⟨"a", some "/r3"⟩, ⟨"a", some "/r2"⟩, ⟨"a", some "/r1"⟩] =
      "/r3" :: ["/r2", "/r1"] ∧
    get_most_recent_replay_id env8c "r" "u" = "/r3".drop 1 :=
  ⟨rfl, by decide, by decide,
    c8_first_match env8c "r" "u"
      [⟨"a", some "/r3"⟩, ⟨"a", some "/r2"⟩, ⟨"a", some "/r1"⟩]
      "/r3" ["/r2", "/r1"] rfl (by decide) (by decide)⟩

/-- C9: `_get_most_recent_replay_id` never raises — it is a total
string-valued function in this embedding because its `except Exception` arm
swallows everything — and it returns the empty identifier both when the
fetch/parse step fails for any reason and when the page holds no matching
link; an empty identifier makes `extract_replays` skip that user and continue
the loop with the remaining ranked users. -/
theorem c9_lookup_failure_skips (env : Env) (f b : String) (u : LadderUserInfo)
    (rest : List LadderUserInfo) (k found : Nat)
    (hfail : (∃ e, replayIdCandidates env f u.username = Except.error e) ∨
      replayIdCandidates env f u.username = Except.ok []) :
    get_most_recent_replay_id env f u.username = "" ∧
    extractLoop env f b (u :: rest) k found = extractLoop env f b rest k found := by
  have hid : get_most_recent_replay_id env f u.username = "" := by
    rcases hfail with ⟨e, he⟩ | he
    · simp [get_most_recent_replay_id, he]
    · simp [get_most_recent_replay_id, he]
  refine ⟨hid, ?_⟩
  simp only [extractLoop]
  rw [if_pos hid]

/-- C9 witness: a search-page fetch that raises a transport error; the
theorem applied at that user. -/
theorem c9_lookup_failure_skips_witness :
    ((∃ e, replayIdCandidates env9c "f" (⟨"dave", 1200⟩ : LadderUserInfo).username =
        Except.error e) ∨
      replayIdCandidates env9c "f" (⟨"dave", 1200⟩ : LadderUserInfo).username =
        Except.ok []) ∧
    (get_most_recent_replay_id env9c "f" (⟨"dave", 1200⟩ : LadderUserInfo).username = "" ∧
     extractLoop env9c "f" "b" (⟨"dave", 1200⟩ :: ([] : List LadderUserInfo)) 3 0 =
       extractLoop env9c "f" "b" [] 3 0) := by
  have hf : (∃ e, replayIdCandidates env9c "f"
      (⟨"dave", 1200⟩ : LadderUserInfo).username = Except.error e) ∨
      replayIdCandidates env9c "f" (⟨"dave", 1200⟩ : LadderUserInfo).username =
        Except.ok [] :=
    Or.inl ⟨PyExc.requestException "timeout", rfl⟩
  exact ⟨hf, c9_lookup_failure_skips env9c "f" "b" ⟨"dave", 1200⟩ [] 3 0 hf⟩

/-- C10: when the first ranked user has a matching replay id but the
replay-JSON fetch succeeds with a falsy body, `_get_replay_json_from_id`
returns the empty dict, record construction raises `KeyError` for `id`, and
that exception propagates out of `extract_replays`, aborting the whole call
with no list returned. -/
theorem c10_falsy_body_aborts (env : Env) (f b : String) (maxUsers n : Nat)
    (u : LadderUserInfo) (rest : List LadderUserInfo)
    (husers : env.getUsers f = u :: rest)
    (hfound : ¬ get_most_recent_replay_id env f u.username = "")
    (hresp : env.getResponse
        (b ++ get_most_recent_replay_id env f u.username ++ ".json") =
      Except.ok none) :
    extract_replays env f b maxUsers n = Except.error (PyExc.keyError "id") := by
  have hrec : get_replay_info env b u (get_most_recent_replay_id env f u.username) =
      Except.error (PyExc.keyError "id") := by
    simp [get_replay_info, get_replay_json_from_id, hresp, emptyReplayJson,
      buildReplayInfo]
  simp only [extract_replays, husers]
  rw [if_neg (List.cons_ne_nil u rest)]
  simp only [extractLoop]
  rw [if_neg hfound]
  simp [hrec]

/-- C10 witness: a concrete falsy-body fetch; the theorem applied there. -/
theorem c10_falsy_body_aborts_witness :
    env10c.getUsers "f" = [⟨"carol", 1600⟩] ∧
    ¬ get_most_recent_replay_id env10c "f"
        (⟨"carol", 1600⟩ : LadderUserInfo).username = "" ∧
    env10c.getResponse ("b" ++ get_most_recent_replay_id env10c "f"
        (⟨"carol", 1600⟩ : LadderUserInfo).username ++ ".json") = Except.ok none ∧
    extract_replays env10c "f" "b" 10 5 = Except.error (PyExc.keyError "id") :=
  ⟨rfl, by decide, rfl,
    c10_falsy_body_aborts env10c "f" "b" 10 5 ⟨"carol", 1600⟩ [] rfl (by decide) rfl⟩

